import Mathlib

/-
Verification development for the headjack credential-management subsystem.

The Go source is shallowly embedded: pure string manipulation becomes Lean
functions on `String` / `List Char`; filesystem reads and backend calls become
explicit inputs (`ReadResult`, environment records); fallible Go functions
returning `(T, error)` become `Except String T` carrying the exact error
message text built by the source.
-/

namespace Headjack

/-- Go `unicode.IsSpace`: the Unicode White_Space code points
(this is the set `strings.TrimSpace` trims). -/
def goIsSpace (c : Char) : Bool :=
  c = ' ' || c = '\t' || c = '\n' || c = '\x0b' || c = '\x0c' || c = '\r' ||
  c = '\u0085' || c = ' ' || c = ' ' ||
  (0x2000 ≤ c.toNat && c.toNat ≤ 0x200A) ||
  c = ' ' || c = ' ' || c = ' ' || c = ' ' || c = '　'

/-- Go `strings.TrimSpace` on a char list. -/
def goTrimList (l : List Char) : List Char :=
  ((l.dropWhile goIsSpace).reverse.dropWhile goIsSpace).reverse

/-- Go `strings.TrimSpace`. -/
def goTrim (s : String) : String := ⟨goTrimList s.toList⟩

/-- Go `strings.HasPrefix s pre` on char lists. -/
def hasPrefixGo : List Char → List Char → Bool
  | _, [] => true
  | [], _ :: _ => false
  | c :: cs, p :: ps => c = p && hasPrefixGo cs ps

/-- Go `strings.Contains s sub` on char lists (used to state that error
messages embed their remediation text). -/
def containsGo : List Char → List Char → Bool
  | [], sub => sub.isEmpty
  | c :: tail, sub => hasPrefixGo (c :: tail) sub || containsGo tail sub

/-- `strings.Contains` on strings. -/
def containsStr (s sub : String) : Bool := containsGo s.toList sub.toList

/-! ### Provider validators (claude.go, codex.go, gemini.go) -/

/-- `ClaudeProvider.ValidateSubscription`. -/
def claudeValidateSubscription (value : String) : Except String Unit :=
  let v := goTrim value
  if v = "" then .error "token cannot be empty"
  else if hasPrefixGo v.toList "sk-ant-".toList then .ok ()
  else .error "invalid Claude OAuth token: must start with \x27sk-ant-\x27"

/-- `ClaudeProvider.ValidateAPIKey`. -/
def claudeValidateAPIKey (value : String) : Except String Unit :=
  let v := goTrim value
  if v = "" then .error "API key cannot be empty"
  else if hasPrefixGo v.toList "sk-ant-api".toList then .ok ()
  else .error "invalid Anthropic API key: must start with \x27sk-ant-api\x27"

/-- `CodexProvider.ValidateSubscription`. -/
def codexValidateSubscription (value : String) : Except String Unit :=
  let v := goTrim value
  if v = "" then .error "credentials cannot be empty"
  else if hasPrefixGo v.toList "\x7b".toList then .ok ()
  else .error "invalid auth.json: must be a JSON object"

/-- `CodexProvider.ValidateAPIKey`. -/
def codexValidateAPIKey (value : String) : Except String Unit :=
  let v := goTrim value
  if v = "" then .error "API key cannot be empty"
  else if hasPrefixGo v.toList "sk-".toList then .ok ()
  else .error "invalid OpenAI API key: must start with \x27sk-\x27"

/-- `GeminiProvider.ValidateAPIKey`. -/
def geminiValidateAPIKey (value : String) : Except String Unit :=
  let v := goTrim value
  if v = "" then .error "API key cannot be empty"
  else if hasPrefixGo v.toList "AIza".toList then .ok ()
  else .error "invalid Google AI API key: must start with \x27AIza\x27"

/-! ### ANSI stripping and token extraction (claude.go) -/

/-- ASCII letter test used by `stripANSI` to end an escape sequence. -/
def isAsciiLetter (c : Char) : Bool :=
  ('a' ≤ c && c ≤ 'z') || ('A' ≤ c && c ≤ 'Z')

/-- Loop of `stripANSI`: the boolean is the `inEscape` flag.  The Go loop is
byte-wise; on valid UTF-8 the byte-wise and char-wise scans agree (0x1B and
ASCII letters are single-byte, and continuation bytes are never letters). -/
def stripANSIAux : List Char → Bool → List Char
  | [], _ => []
  | c :: rest, inEscape =>
    if c = '\x1b' then stripANSIAux rest true
    else if inEscape then
      if isAsciiLetter c then stripANSIAux rest false
      else stripANSIAux rest true
    else c :: stripANSIAux rest false

/-- `stripANSI` from claude.go. -/
def stripANSI (s : String) : String := ⟨stripANSIAux s.toList false⟩

/-- `isClaudeToken` from claude.go: `strings.HasPrefix s "sk-ant-"`. -/
def isClaudeToken (l : List Char) : Bool := hasPrefixGo l "sk-ant-".toList

/-- Separator predicate of the `strings.FieldsFunc` call in `extractToken`. -/
def isLineSep (c : Char) : Bool := c = '\n' || c = '\r'

/-- Accumulator loop for `strings.FieldsFunc` (empty fields are dropped). -/
def fieldsAux (p : Char → Bool) : List Char → List Char → List (List Char)
  | [], acc => if acc.isEmpty then [] else [acc.reverse]
  | c :: rest, acc =>
    if p c then
      if acc.isEmpty then fieldsAux p rest []
      else acc.reverse :: fieldsAux p rest []
    else fieldsAux p rest (c :: acc)

/-- Go `strings.FieldsFunc p l`. -/
def fieldsFuncGo (p : Char → Bool) (l : List Char) : List (List Char) :=
  fieldsAux p l []

/-- Loop body of `extractToken`: each line is first `TrimSpace`d, then
ANSI-stripped, then tested with `isClaudeToken` — in that source order. -/
def extractTokenGo : List (List Char) → List Char
  | [] => []
  | line :: rest =>
    let t := stripANSIAux (goTrimList line) false
    if isClaudeToken t then t else extractTokenGo rest

/-- `extractToken` from claude.go. -/
def extractToken (s : String) : String :=
  ⟨extractTokenGo (fieldsFuncGo isLineSep s.toList)⟩

/-- The token-extraction procedure as the spec sentence words it: return the
first line that, AFTER ANSI-escape stripping and whitespace trimming, starts
with the vendor code, that line given in stripped-then-trimmed form. -/
def specExtractToken (s : String) : String :=
  match (fieldsFuncGo isLineSep s.toList).find?
      (fun line => isClaudeToken (goTrimList (stripANSIAux line false))) with
  | some line => ⟨goTrimList (stripANSIAux line false)⟩
  | none => ""

/-- The token-extraction procedure in the source's actual order: each line is
whitespace-trimmed first and ANSI-stripped second, and that trimmed-then-
stripped value is both tested and returned. -/
def extractTokenFound (s : String) : String :=
  match (fieldsFuncGo isLineSep s.toList).find?
      (fun line => isClaudeToken (stripANSIAux (goTrimList line) false)) with
  | some line => ⟨stripANSIAux (goTrimList line) false⟩
  | none => ""

/-! ### Keychain backend selection (internal/keychain/keyring.go, keychain.go)

A `Backend` is a Go string; the named constants mirror keychain.go.  The
ambient process state consulted by detection is collected in `KeyEnv`:
`os.Getenv` returns the empty string for an unset variable, and the single
`os.Stat` probe (does `$XDG_RUNTIME_DIR/bus` exist?) is a boolean input. -/

def BackendAuto : String := ""
def BackendKeychain : String := "keychain"
def BackendSecretService : String := "secret-service"
def BackendKeyctl : String := "keyctl"
def BackendWinCred : String := "wincred"
def BackendFile : String := "file"

structure KeyEnv where
  /-- value of `DBUS_SESSION_BUS_ADDRESS` (empty = unset) -/
  dbusSessionBusAddress : String
  /-- value of `XDG_RUNTIME_DIR` (empty = unset) -/
  xdgRuntimeDir : String
  /-- value of `HEADJACK_KEYRING_BACKEND` (empty = unset) -/
  keyringBackend : String
  /-- whether `os.Stat(filepath.Join(xdgRuntimeDir, "bus"))` succeeds -/
  busSocketExists : Bool

/-- `isSecretServiceAvailable`. -/
def isSecretServiceAvailable (env : KeyEnv) : Bool :=
  if env.dbusSessionBusAddress ≠ "" then true
  else if env.xdgRuntimeDir ≠ "" && env.busSocketExists then true
  else false

/-- `isKeyctlAvailable`: `runtime.GOOS == "linux"`. -/
def isKeyctlAvailable (goos : String) : Bool := goos = "linux"

/-- `detectBackend`. -/
def detectBackend (goos : String) (env : KeyEnv) : String :=
  if goos = "darwin" then BackendKeychain
  else if goos = "windows" then BackendWinCred
  else if goos = "linux" then
    if isSecretServiceAvailable env then BackendSecretService
    else if isKeyctlAvailable goos then BackendKeyctl
    else BackendFile
  else BackendFile

/-- The backend `NewWithConfig` settles on before calling `openKeyring`:
start from `cfg.Backend`, auto-detect if it is `BackendAuto`, then let a
non-empty `HEADJACK_KEYRING_BACKEND` replace the result. -/
def newWithConfigBackend (cfgBackend : String) (goos : String) (env : KeyEnv) : String :=
  let backend := if cfgBackend = BackendAuto then detectBackend goos env else cfgBackend
  if env.keyringBackend ≠ "" then env.keyringBackend else backend

/-- Backend selection as the spec sentence words it: the override variable,
when set, wins outright (even over an explicit non-Auto caller choice);
otherwise an explicit choice stands; otherwise detect by platform, with the
Linux probe order secret-service, kernel keyring (always available there),
encrypted file. -/
def specSelectBackend (cfgBackend : String) (goos : String) (env : KeyEnv) : String :=
  if env.keyringBackend ≠ "" then env.keyringBackend
  else if cfgBackend ≠ BackendAuto then cfgBackend
  else if goos = "darwin" then BackendKeychain
  else if goos = "windows" then BackendWinCred
  else if goos = "linux" then
    if env.dbusSessionBusAddress ≠ "" ||
        (env.xdgRuntimeDir ≠ "" && env.busSocketExists) then BackendSecretService
    else if isKeyctlAvailable goos then BackendKeyctl
    else BackendFile
  else BackendFile

/-! ### Password resolution for the encrypted-file backend -/

/-- keychain.go `ErrNoPassword`. -/
def errNoPasswordMsg : String :=
  "keyring password required: set HEADJACK_KEYRING_PASSWORD or run in interactive terminal"

/-- Process state consulted by `defaultPasswordFunc`: the password variable,
whether stdin is a terminal, and the outcome `term.ReadPassword` would
produce (the no-echo read). -/
structure PwEnv where
  /-- value of `HEADJACK_KEYRING_PASSWORD` (empty = unset) -/
  keyringPassword : String
  /-- `term.IsTerminal(os.Stdin)` -/
  stdinIsTerminal : Bool
  /-- result of `term.ReadPassword` on stdin -/
  terminalInput : Except String String

/-- Outcome of a password-function call: the returned `(string, error)` pair
and everything the call wrote to the error stream. -/
structure PwOutcome where
  result : Except String String
  stderrOutput : String

/-- `terminalPrompt`: writes the prompt to stderr, performs the no-echo read,
writes a newline to stderr after the input, and returns the entry. -/
def terminalPrompt (env : PwEnv) (prompt : String) : PwOutcome :=
  match env.terminalInput with
  | .ok pw => ⟨.ok pw, prompt ++ "\n"⟩
  | .error e => ⟨.error ("read password: " ++ e), prompt ++ "\n"⟩

/-- `defaultPasswordFunc`. -/
def defaultPasswordFunc (env : PwEnv) (prompt : String) : PwOutcome :=
  if env.keyringPassword ≠ "" then ⟨.ok env.keyringPassword, ""⟩
  else if env.stdinIsTerminal then terminalPrompt env prompt
  else ⟨.error errNoPasswordMsg, ""⟩

/-- The password function `openKeyring` installs: `cfg.PasswordFunc` when the
caller supplied one (used as given, touching neither the environment nor the
terminal), else `defaultPasswordFunc`. -/
def resolvePassword (cfgFunc : Option (String → Except String String))
    (env : PwEnv) (prompt : String) : PwOutcome :=
  match cfgFunc with
  | some f => ⟨f prompt, ""⟩
  | none => defaultPasswordFunc env prompt

/-- Password resolution as the spec sentence words it: caller function
exclusively when present; else the password variable when non-empty; else,
only on an interactive stdin, prompt on the error stream, return the entry,
newline after input; else the PasswordRequired failure. -/
def specResolvePassword (cfgFunc : Option (String → Except String String))
    (env : PwEnv) (prompt : String) : PwOutcome :=
  match cfgFunc with
  | some f => ⟨f prompt, ""⟩
  | none =>
    if env.keyringPassword ≠ "" then ⟨.ok env.keyringPassword, ""⟩
    else if env.stdinIsTerminal then
      match env.terminalInput with
      | .ok pw => ⟨.ok pw, prompt ++ "\n"⟩
      | .error e => ⟨.error ("read password: " ++ e), prompt ++ "\n"⟩
    else ⟨.error errNoPasswordMsg, ""⟩

/-! ### keyringStore.Delete (keyring.go lines 180-191)

The 99designs/keyring backend is external; its `Remove` outcome is modelled
explicitly.  A backend reports a missing key either as the typed
`keyring.ErrKeyNotFound` or as a filesystem not-exist error (the encrypted
file backend), captured by the `typedNotFound` flag. -/

inductive RemoveResult where
  | ok
  | keyNotFound
  | fileNotExist
  | otherErr (e : String)
deriving DecidableEq

/-- The error conversion `keyringStore.Delete` applies to `ring.Remove`:
`nil` stays success, `keyring.ErrKeyNotFound` and `os.IsNotExist` become
success, anything else is returned unchanged. -/
def deleteMapErr : RemoveResult → Except String Unit
  | .ok => .ok ()
  | .keyNotFound => .ok ()
  | .fileNotExist => .ok ()
  | .otherErr e => .error e

/-- State of a conforming backend: the stored account/secret pairs. -/
structure StoreState where
  entries : List (String × String)
deriving DecidableEq

/-- `ring.Remove` of a conforming backend: removes a present account, and
reports a missing one as key-not-found (typed) or file-not-exist (generic),
per the backend kind. -/
def ringRemove (typedNotFound : Bool) (st : StoreState) (account : String) :
    StoreState × RemoveResult :=
  if (st.entries.lookup account).isSome then
    (⟨st.entries.filter (fun kv => kv.1 ≠ account)⟩, .ok)
  else
    (st, if typedNotFound then .keyNotFound else .fileNotExist)

/-- `keyringStore.Delete` over the backend model. -/
def keychainDelete (typedNotFound : Bool) (st : StoreState) (account : String) :
    StoreState × Except String Unit :=
  let r := ringRemove typedNotFound st account
  (r.1, deleteMapErr r.2)

/-! ### A model of the encoding/json subset the providers rely on

`Json` is the parse result; `num` keeps the numeric token text because the
providers never read numbers.  The parser follows the Go scanner grammar
(strict JSON: the exact literal/number/string token forms, whitespace
`' '`,`'\t'`,`'\n'`,`'\r'`, no trailing data), with fuel for termination. -/

inductive Json where
  | null
  | bool (b : Bool)
  | num (text : String)
  | str (s : String)
  | arr (items : List Json)
  | obj (fields : List (String × Json))

/-- JSON insignificant whitespace (the Go scanner's `isSpace`). -/
def jsonWs (c : Char) : Bool := c = ' ' || c = '\t' || c = '\n' || c = '\r'

/-- Value of one hex digit, as the Go lexer accepts them (0-9, a-f, A-F). -/
def hexDigitVal (c : Char) : Option Nat :=
  let n := c.toNat
  if 48 ≤ n && n ≤ 57 then some (n - 48)
  else if 97 ≤ n && n ≤ 102 then some (n - 87)
  else if 65 ≤ n && n ≤ 70 then some (n - 55)
  else none

/-- Four hex digits of a `\uXXXX` escape. -/
def parseHex4 : List Char → Option (Nat × List Char)
  | a :: b :: c :: d :: rest =>
    (match hexDigitVal a, hexDigitVal b, hexDigitVal c, hexDigitVal d with
     | some va, some vb, some vc, some vd =>
       some (va * 4096 + vb * 256 + vc * 16 + vd, rest)
     | _, _, _, _ => none)
  | _ => none

def isHighSurrogate (n : Nat) : Bool := 0xD800 ≤ n && n ≤ 0xDBFF
def isLowSurrogate (n : Nat) : Bool := 0xDC00 ≤ n && n ≤ 0xDFFF

/-- Body of a JSON string literal, after the opening quote: returns the
decoded characters and the input after the closing quote.  Mirrors Go's
unquoting: standard escapes, `\uXXXX` with surrogate-pair combination and
U+FFFD for unpaired surrogates, and a hard error on raw control bytes. -/
def parseStringBody : Nat → List Char → Except String (List Char × List Char)
  | 0, _ => .error "fuel exhausted"
  | _ + 1, [] => .error "unexpected end of string literal"
  | fuel + 1, c :: rest =>
    if c = '"' then .ok ([], rest)
    else if c = '\\' then
      match rest with
      | 'u' :: r2 =>
        match parseHex4 r2 with
        | none => .error "invalid unicode escape"
        | some (n, r3) =>
          if isHighSurrogate n then
            match r3 with
            | '\\' :: 'u' :: r4 =>
              (match parseHex4 r4 with
               | some (m, r5) =>
                 if isLowSurrogate m then
                   (parseStringBody fuel r5).map (fun p =>
                     (Char.ofNat (0x10000 + (n - 0xD800) * 0x400 + (m - 0xDC00)) :: p.1, p.2))
                 else
                   (parseStringBody fuel r3).map (fun p => ('�' :: p.1, p.2))
               | none => (parseStringBody fuel r3).map (fun p => ('�' :: p.1, p.2)))
            | _ => (parseStringBody fuel r3).map (fun p => ('�' :: p.1, p.2))
          else if isLowSurrogate n then
            (parseStringBody fuel r3).map (fun p => ('�' :: p.1, p.2))
          else
            (parseStringBody fuel r3).map (fun p => (Char.ofNat n :: p.1, p.2))
      | e :: r2 =>
        let esc : Option Char :=
          if e = '"' then some '"'
          else if e = '\\' then some '\\'
          else if e = '/' then some '/'
          else if e = 'b' then some '\x08'
          else if e = 'f' then some '\x0c'
          else if e = 'n' then some '\n'
          else if e = 'r' then some '\r'
          else if e = 't' then some '\t'
          else none
        match esc with
        | some d => (parseStringBody fuel r2).map (fun p => (d :: p.1, p.2))
        | none => .error "invalid escape in string literal"
      | [] => .error "unexpected end of string literal"
    else if c.toNat < 0x20 then .error "control character in string literal"
    else (parseStringBody fuel rest).map (fun p => (c :: p.1, p.2))

def spanDigits (l : List Char) : List Char × List Char :=
  (l.takeWhile Char.isDigit, l.dropWhile Char.isDigit)

def parseExpPart (tok : List Char) (l : List Char) :
    Except String (List Char × List Char) :=
  match l with
  | c :: r =>
    if c = 'e' || c = 'E' then
      match r with
      | s :: r2 =>
        if s = '+' || s = '-' then
          let (ds, r3) := spanDigits r2
          if ds.isEmpty then .error "invalid number literal"
          else .ok (tok ++ [c, s] ++ ds, r3)
        else
          let (ds, r3) := spanDigits r
          if ds.isEmpty then .error "invalid number literal"
          else .ok (tok ++ [c] ++ ds, r3)
      | [] => .error "invalid number literal"
    else .ok (tok, l)
  | [] => .ok (tok, [])

def parseFracPart (tok : List Char) (l : List Char) :
    Except String (List Char × List Char) :=
  match l with
  | '.' :: r =>
    let (ds, r2) := spanDigits r
    if ds.isEmpty then .error "invalid number literal"
    else parseExpPart (tok ++ '.' :: ds) r2
  | _ => parseExpPart tok l

def parseIntPart (l : List Char) : Except String (List Char × List Char) :=
  match l with
  | '0' :: r => parseFracPart ['0'] r
  | c :: r =>
    if '1' ≤ c && c ≤ '9' then
      let (ds, r2) := spanDigits r
      parseFracPart (c :: ds) r2
    else .error "invalid number literal"
  | [] => .error "invalid number literal"

def parseNumber (l : List Char) : Except String (Json × List Char) :=
  match l with
  | '-' :: r => (parseIntPart r).map (fun p => (.num ⟨'-' :: p.1⟩, p.2))
  | _ => (parseIntPart l).map (fun p => (.num ⟨p.1⟩, p.2))

mutual

def parseValue : Nat → List Char → Except String (Json × List Char)
  | 0, _ => .error "fuel exhausted"
  | fuel + 1, l =>
    match l.dropWhile jsonWs with
    | 'n' :: 'u' :: 'l' :: 'l' :: r => .ok (.null, r)
    | 't' :: 'r' :: 'u' :: 'e' :: r => .ok (.bool true, r)
    | 'f' :: 'a' :: 'l' :: 's' :: 'e' :: r => .ok (.bool false, r)
    | '"' :: r =>
      (match parseStringBody (r.length + 1) r with
       | .error e => .error e
       | .ok (cs, r2) => .ok (.str ⟨cs⟩, r2))
    | '\x7b' :: r =>
      (match r.dropWhile jsonWs with
       | '\x7d' :: r2 => .ok (.obj [], r2)
       | r1 => (parseMembers fuel r1).map (fun p => (.obj p.1, p.2)))
    | '[' :: r =>
      (match r.dropWhile jsonWs with
       | ']' :: r2 => .ok (.arr [], r2)
       | r1 => (parseElems fuel r1).map (fun p => (.arr p.1, p.2)))
    | l1 => parseNumber l1

def parseMembers : Nat → List Char → Except String (List (String × Json) × List Char)
  | 0, _ => .error "fuel exhausted"
  | fuel + 1, l =>
    match l with
    | '"' :: r =>
      (match parseStringBody (r.length + 1) r with
       | .error e => .error e
       | .ok (kcs, r2) =>
         match r2.dropWhile jsonWs with
         | ':' :: r3 =>
           (match parseValue fuel r3 with
            | .error e => .error e
            | .ok (v, r4) =>
              match r4.dropWhile jsonWs with
              | ',' :: r5 =>
                (parseMembers fuel (r5.dropWhile jsonWs)).map
                  (fun p => ((⟨kcs⟩, v) :: p.1, p.2))
              | '\x7d' :: r5 => .ok ([(⟨kcs⟩, v)], r5)
              | _ => .error "invalid character after object value")
         | _ => .error "expected colon after object key")
    | _ => .error "expected object key"

def parseElems : Nat → List Char → Except String (List Json × List Char)
  | 0, _ => .error "fuel exhausted"
  | fuel + 1, l =>
    match parseValue fuel l with
    | .error e => .error e
    | .ok (v, r) =>
      match r.dropWhile jsonWs with
      | ',' :: r2 => (parseElems fuel r2).map (fun p => (v :: p.1, p.2))
      | ']' :: r2 => .ok ([v], r2)
      | _ => .error "invalid character after array element"

end

/-- `json.Unmarshal`-style full parse: the top-level value followed only by
whitespace (Go's `checkValid` rejects trailing data). -/
def parseJson (s : String) : Except String Json :=
  match parseValue (2 * s.length + 4) s.toList with
  | .error e => .error e
  | .ok (v, rest) =>
    if (rest.dropWhile jsonWs).isEmpty then .ok v
    else .error "invalid character after top-level value"

/-- ASCII lower-casing, the case-folding Go's decoder applies when matching
JSON keys to struct fields. -/
def asciiLowerChar (c : Char) : Char :=
  if 'A' ≤ c && c ≤ 'Z' then Char.ofNat (c.toNat + 32) else c

/-- Key matching for a struct field tagged `target` (exact, or ASCII
case-insensitive). -/
def foldEqKey (target : List Char) (k : String) : Bool :=
  k.toList.map asciiLowerChar = target

/-- Decode the members of a JSON object into `struct { RefreshToken string
`json:"refresh_token"` }`: later matching keys overwrite, a `null` value
leaves the field untouched, a non-string non-null value is a type error that
the decoder records while continuing. -/
def refreshTokenFold : List (String × Json) → Option String → Bool → Except String String
  | [], acc, err =>
    if err then .error "json: cannot unmarshal value into field refresh_token of type string"
    else .ok (acc.getD "")
  | (k, v) :: rest, acc, err =>
    if foldEqKey "refresh_token".toList k then
      match v with
      | .str t => refreshTokenFold rest (some t) err
      | .null => refreshTokenFold rest acc err
      | _ => refreshTokenFold rest acc true
    else refreshTokenFold rest acc err

/-- `json.Unmarshal(data, &struct{ RefreshToken string })`: the top level
must be an object (or `null`, which leaves the zero value `""`). -/
def unmarshalRefreshToken (s : String) : Except String String :=
  match parseJson s with
  | .error e => .error e
  | .ok .null => .ok ""
  | .ok (.obj members) => refreshTokenFold members none false
  | .ok _ => .error "json: cannot unmarshal value into Go struct"

/-- The HTML escaping `json.Marshal` applies while compacting a
`json.RawMessage` (`<`, `>`, `&`, U+2028, U+2029). -/
def escapeHTMLChar (c : Char) : List Char :=
  if c = '<' then "\\u003c".toList
  else if c = '>' then "\\u003e".toList
  else if c = '&' then "\\u0026".toList
  else if c = ' ' then "\\u2028".toList
  else if c = ' ' then "\\u2029".toList
  else [c]

/-- Textual pass of Go's `compact` on a (valid) JSON document: whitespace
outside string literals is dropped, everything else is copied with the HTML
escaping above; the two booleans track in-string and after-backslash. -/
def compactChars : List Char → Bool → Bool → List Char
  | [], _, _ => []
  | c :: r, inStr, esc =>
    if inStr then
      if esc then escapeHTMLChar c ++ compactChars r true false
      else if c = '\\' then c :: compactChars r true true
      else if c = '"' then c :: compactChars r false false
      else escapeHTMLChar c ++ compactChars r true false
    else
      if c = '"' then c :: compactChars r true false
      else if jsonWs c then compactChars r false false
      else escapeHTMLChar c ++ compactChars r false false

/-- What `json.Marshal` does with a `json.RawMessage`: validate it and embed
it compacted (or fail on an invalid raw document). -/
def goCompact (s : String) : Except String String :=
  match parseJson s with
  | .error e => .error e
  | .ok _ => .ok ⟨compactChars s.toList false false⟩

/-! ### Provider subscription checks (codex.go, gemini.go)

Filesystem reads become a `ReadResult` input: the three outcomes of
`os.ReadFile` the source distinguishes. -/

inductive ReadResult where
  | notExist
  | readErr (e : String)
  | ok (data : String)

def codexNotAuthMsg : String :=
  "Codex credentials not found.\n\nTo authenticate with your ChatGPT subscription:\n  1. Run: codex login\n  2. Complete the OAuth flow in your browser\n  3. Run: hjk auth codex"

def codexEmptyMsg : String := "codex auth.json is empty: login may have failed"

/-- `readCodexAuth`, as a function of the `os.ReadFile` outcome for
`~/.codex/auth.json`. -/
def readCodexAuth : ReadResult → Except String String
  | .notExist => .error codexNotAuthMsg
  | .readErr e => .error ("read auth.json: " ++ e)
  | .ok d => if d = "" then .error codexEmptyMsg else .ok d

/-- `CodexProvider.CheckSubscription`: the raw bytes pass through verbatim. -/
def codexCheckSubscription (r : ReadResult) : Except String String :=
  readCodexAuth r

def geminiNotAuthMsg : String :=
  "Gemini credentials not found.\n\nTo authenticate with your Gemini subscription:\n  1. Run: gemini\n  2. Complete the Google OAuth login\n  3. Run: hjk auth gemini"

def geminiMissingRefreshMsg : String :=
  "gemini credentials missing refresh token: please run \x27gemini\x27 and complete the OAuth login"

def geminiAccountsMissingMsg : String :=
  "google_accounts.json not found: please run \x27gemini\x27 and complete the OAuth login first"

/-- `readGeminiConfig`, as a function of the `os.ReadFile` outcomes for
`oauth_creds.json` and `google_accounts.json`; returns both raw documents. -/
def readGeminiConfig (oauth accounts : ReadResult) : Except String (String × String) :=
  match oauth with
  | .notExist => .error geminiNotAuthMsg
  | .readErr e => .error ("read oauth_creds.json: " ++ e)
  | .ok od =>
    match unmarshalRefreshToken od with
    | .error e => .error ("parse oauth_creds.json: " ++ e)
    | .ok rt =>
      if rt = "" then .error geminiMissingRefreshMsg
      else
        match accounts with
        | .notExist => .error geminiAccountsMissingMsg
        | .readErr e => .error ("read google_accounts.json: " ++ e)
        | .ok ad => .ok (od, ad)

/-- `json.Marshal` of a `GeminiConfig` holding the two raw documents: the
struct fields are emitted in declaration order, each `RawMessage` compacted. -/
def marshalGeminiConfig (oauthData accountsData : String) : Except String String :=
  match goCompact oauthData with
  | .error e => .error e
  | .ok a =>
    match goCompact accountsData with
    | .error e => .error e
    | .ok b => .ok ("\x7b\"oauth_creds\":" ++ a ++ ",\"google_accounts\":" ++ b ++ "\x7d")

/-- `GeminiProvider.CheckSubscription`. -/
def geminiCheckSubscription (oauth accounts : ReadResult) : Except String String :=
  match readGeminiConfig oauth accounts with
  | .error e => .error e
  | .ok (od, ad) =>
    match marshalGeminiConfig od ad with
    | .error e => .error ("marshal config: " ++ e)
    | .ok s => .ok s

/-! ### GeminiProvider.ValidateSubscription

Decoding into `GeminiConfig` captures each matching member's raw value text
(`json.RawMessage`); `rawMembers` re-scans a validated top-level object for
those spans. -/

def rawMembers : Nat → List Char → Except String (List (String × List Char))
  | 0, _ => .error "fuel exhausted"
  | fuel + 1, l =>
    match l with
    | '"' :: r =>
      (match parseStringBody (r.length + 1) r with
       | .error e => .error e
       | .ok (kcs, r2) =>
         match r2.dropWhile jsonWs with
         | ':' :: r3 =>
           let v0 := r3.dropWhile jsonWs
           (match parseValue (2 * v0.length + 4) v0 with
            | .error e => .error e
            | .ok (_, r4) =>
              let raw := v0.take (v0.length - r4.length)
              match r4.dropWhile jsonWs with
              | ',' :: r5 =>
                (rawMembers fuel (r5.dropWhile jsonWs)).map
                  (fun ms => (⟨kcs⟩, raw) :: ms)
              | '\x7d' :: _ => .ok [(⟨kcs⟩, raw)]
              | _ => .error "invalid character after object value")
         | _ => .error "expected colon after object key")
    | _ => .error "expected object key"

def rawTopMembers (s : String) : Except String (List (String × List Char)) :=
  match s.toList.dropWhile jsonWs with
  | '\x7b' :: r =>
    (match r.dropWhile jsonWs with
     | '\x7d' :: _ => .ok []
     | r1 => rawMembers (r1.length + 1) r1)
  | _ => .error "not an object"

/-- Assign raw member spans to the `oauth_creds` / `google_accounts` fields
(later matching keys overwrite; a `RawMessage` field accepts any value,
`null` included, so no type errors arise). -/
def geminiRawFold : List (String × List Char) → Option (List Char) → Option (List Char) →
    Option (List Char) × Option (List Char)
  | [], o, g => (o, g)
  | (k, raw) :: rest, o, g =>
    if foldEqKey "oauth_creds".toList k then geminiRawFold rest (some raw) g
    else if foldEqKey "google_accounts".toList k then geminiRawFold rest o (some raw)
    else geminiRawFold rest o g

/-- `json.Unmarshal(value, &GeminiConfig)`: top level must be an object (or
`null`, leaving both fields empty); absent fields stay zero-length. -/
def unmarshalGeminiConfig (s : String) : Except String (String × String) :=
  match parseJson s with
  | .error e => .error e
  | .ok .null => .ok ("", "")
  | .ok (.obj _) =>
    (match rawTopMembers s with
     | .error e => .error e
     | .ok ms =>
       let r := geminiRawFold ms none none
       .ok (⟨(r.1.getD [])⟩, ⟨(r.2.getD [])⟩))
  | .ok _ => .error "json: cannot unmarshal value into Go struct GeminiConfig"

/-- `GeminiProvider.ValidateSubscription`. -/
def geminiValidateSubscription (value : String) : Except String Unit :=
  let v := goTrim value
  if v = "" then .error "credentials cannot be empty"
  else
    match unmarshalGeminiConfig v with
    | .error e => .error ("invalid JSON format: " ++ e)
    | .ok (oc, ga) =>
      if oc = "" then .error "missing oauth_creds in credentials"
      else if ga = "" then .error "missing google_accounts in credentials"
      else
        match unmarshalRefreshToken oc with
        | .error e => .error ("parse oauth_creds: " ++ e)
        | .ok rt =>
          if rt = "" then .error "missing refresh_token in oauth_creds"
          else .ok ()

/-! ## Supporting lemmas -/

lemma stripANSIAux_of_no_escape :
    ∀ l : List Char, (∀ c ∈ l, c ≠ '\x1b') → stripANSIAux l false = l := by
  intro l
  induction l with
  | nil => intro _; rfl
  | cons c rest ih =>
    intro h
    have hc : c ≠ '\x1b' := h c (List.mem_cons_self _ _)
    have hrest : ∀ d ∈ rest, d ≠ '\x1b' := fun d hd => h d (List.mem_cons_of_mem _ hd)
    simp only [stripANSIAux, if_neg hc]
    exact congrArg (c :: ·) (ih hrest)

lemma stripANSIAux_of_no_letter :
    ∀ l : List Char, (∀ c ∈ l, isAsciiLetter c = false) → stripANSIAux l true = [] := by
  intro l
  induction l with
  | nil => intro _; rfl
  | cons c rest ih =>
    intro h
    have hrest : ∀ d ∈ rest, isAsciiLetter d = false :=
      fun d hd => h d (List.mem_cons_of_mem _ hd)
    by_cases hc : c = '\x1b'
    · simp only [stripANSIAux, if_pos hc]
      exact ih hrest
    · simp only [stripANSIAux, if_neg hc, h c (List.mem_cons_self _ _)]
      simp only [Bool.false_eq_true, if_false]
      exact ih hrest

lemma extractTokenGo_shape (ls : List (List Char)) :
    extractTokenGo ls = [] ∨ isClaudeToken (extractTokenGo ls) = true := by
  induction ls with
  | nil => exact Or.inl rfl
  | cons l rest ih =>
    simp only [extractTokenGo]
    by_cases h : isClaudeToken (stripANSIAux (goTrimList l) false) = true
    · rw [if_pos h]; exact Or.inr h
    · rw [if_neg h]; exact ih

lemma extractTokenGo_eq_find (ls : List (List Char)) :
    extractTokenGo ls =
      (match ls.find? (fun line => isClaudeToken (stripANSIAux (goTrimList line) false)) with
       | some line => stripANSIAux (goTrimList line) false
       | none => []) := by
  induction ls with
  | nil => rfl
  | cons l rest ih =>
    by_cases h : isClaudeToken (stripANSIAux (goTrimList l) false) = true
    · simp only [extractTokenGo, List.find?, h, if_true]
    · simp only [extractTokenGo, List.find?, h, if_false, Bool.false_eq_true]
      exact ih

lemma lookup_filter_ne (l : List (String × String)) (a : String) :
    (l.filter (fun kv => kv.1 ≠ a)).lookup a = none := by
  induction l with
  | nil => rfl
  | cons kv rest ih =>
    obtain ⟨k, b⟩ := kv
    rw [List.filter_cons]
    by_cases h : k = a
    · simpa [h] using ih
    · have hd : (decide ¬((k, b).1 = a)) = true := by simp [h]
      simp only [ne_eq, hd, if_true, List.lookup]
      have hbeq : (a == k) = false := by
        simp only [beq_eq_false_iff_ne, ne_eq]
        exact fun hh => h hh.symm
      rw [hbeq]
      exact ih

/-! ## Claims -/

/-- C1: at Keychain construction the backend is selected once: the caller's
explicit choice, auto-detected by platform when that choice is Auto (macOS →
platform keychain, Windows → credential manager, Linux → secret-service when
the session bus looks reachable, else the always-available kernel keyring,
else the encrypted file; other platforms → encrypted file), and finally a
non-empty `HEADJACK_KEYRING_BACKEND` replaces the result, overriding even an
explicit non-Auto choice. -/
theorem backend_selection_matches_spec (cfgBackend goos : String) (env : KeyEnv) :
    newWithConfigBackend cfgBackend goos env = specSelectBackend cfgBackend goos env := by
  simp only [newWithConfigBackend, specSelectBackend, detectBackend,
    isSecretServiceAvailable, isKeyctlAvailable, BackendAuto]
  by_cases hk : env.keyringBackend = "" <;> by_cases hc : cfgBackend = "" <;>
    simp [hk, hc]

/-- C2: password resolution for the encrypted-file backend follows exactly
the chain: a caller-supplied function is used exclusively; else the password
environment variable when non-empty; else, only on an interactive stdin, a
no-echo prompt on the error stream with a trailing newline after input,
returning the entry; else the PasswordRequired error whose message names
both remediation options. -/
theorem password_resolution_matches_spec :
    (∀ (cfgFunc : Option (String → Except String String)) (env : PwEnv) (prompt : String),
        resolvePassword cfgFunc env prompt = specResolvePassword cfgFunc env prompt)
    ∧ containsStr errNoPasswordMsg "HEADJACK_KEYRING_PASSWORD" = true
    ∧ containsStr errNoPasswordMsg "interactive terminal" = true := by
  refine ⟨?_, by decide, by decide⟩
  intro cfgFunc env prompt
  cases cfgFunc with
  | some f => rfl
  | none =>
    simp only [resolvePassword, specResolvePassword, defaultPasswordFunc, terminalPrompt]

/-- C6: `stripANSI` discards bytes from each 0x1B up to and including the
next ASCII letter and copies everything else: the documented example strips
to `sk-ant-abc123`, escape-free input is unchanged, and an unterminated
escape sequence strips to the empty string. -/
theorem stripANSI_algorithm :
    stripANSI "\x1b[31msk-ant-abc123\x1b[0m" = "sk-ant-abc123"
    ∧ (∀ s : String, (∀ c ∈ s.toList, c ≠ '\x1b') → stripANSI s = s)
    ∧ (∀ s : String, s.toList.head? = some '\x1b' →
        (∀ c ∈ s.toList, isAsciiLetter c = false) → stripANSI s = "") := by
  refine ⟨by decide, ?_, ?_⟩
  · intro s h
    obtain ⟨d⟩ := s
    exact congrArg String.mk (stripANSIAux_of_no_escape d h)
  · intro s h1 h2
    obtain ⟨d⟩ := s
    cases d with
    | nil => simp at h1
    | cons c rest =>
      have hc : c = '\x1b' := by simpa using h1
      have hrest : ∀ x ∈ rest, isAsciiLetter x = false :=
        fun x hx => h2 x (List.mem_cons_of_mem _ hx)
      show String.mk (stripANSIAux (c :: rest) false) = ""
      simp only [stripANSIAux, if_pos hc]
      rw [stripANSIAux_of_no_letter rest hrest]

/-- Witness for C6 at concrete inputs: escape-free text is unchanged and the
unterminated sequence `ESC [ 3 1` strips to empty. -/
theorem stripANSI_algorithm_witness :
    stripANSI "plain text" = "plain text" ∧ stripANSI "\x1b[31" = "" :=
  ⟨stripANSI_algorithm.2.1 "plain text" (by decide),
   stripANSI_algorithm.2.2 "\x1b[31" (by decide) (by decide)⟩

/-- C7: for every provider, both validators reject empty or whitespace-only
input with the empty-credential error (the value is trimmed before any other
check, so a whitespace-only value hits the same branch as the empty one). -/
theorem validators_reject_blank (v : String) (h : goTrim v = "") :
    claudeValidateAPIKey v = .error "API key cannot be empty"
    ∧ claudeValidateSubscription v = .error "token cannot be empty"
    ∧ codexValidateAPIKey v = .error "API key cannot be empty"
    ∧ codexValidateSubscription v = .error "credentials cannot be empty"
    ∧ geminiValidateAPIKey v = .error "API key cannot be empty"
    ∧ geminiValidateSubscription v = .error "credentials cannot be empty" := by
  refine ⟨?_, ?_, ?_, ?_, ?_, ?_⟩ <;>
    simp [claudeValidateAPIKey, claudeValidateSubscription, codexValidateAPIKey,
      codexValidateSubscription, geminiValidateAPIKey, geminiValidateSubscription, h]

/-- Witness for C7 at the whitespace-only input `"  \t "`. -/
theorem validators_reject_blank_witness :
    claudeValidateAPIKey "  \t " = .error "API key cannot be empty"
    ∧ geminiValidateSubscription "  \t " = .error "credentials cannot be empty" :=
  ⟨(validators_reject_blank "  \t " (by decide)).1,
   (validators_reject_blank "  \t " (by decide)).2.2.2.2.2⟩

/-- C8: on non-blank input, each provider's `ValidateAPIKey` succeeds exactly
when the trimmed value literally starts with the provider's fixed
case-sensitive vendor code (`sk-ant-api` for claude, `sk-` for codex, `AIza`
for gemini). -/
theorem apikey_validation_is_literal_starts_with (v : String) (h : goTrim v ≠ "") :
    (claudeValidateAPIKey v = .ok () ↔
      hasPrefixGo (goTrim v).toList "sk-ant-api".toList = true)
    ∧ (codexValidateAPIKey v = .ok () ↔
      hasPrefixGo (goTrim v).toList "sk-".toList = true)
    ∧ (geminiValidateAPIKey v = .ok () ↔
      hasPrefixGo (goTrim v).toList "AIza".toList = true) := by
  refine ⟨?_, ?_, ?_⟩
  · by_cases hb : hasPrefixGo (goTrim v).toList "sk-ant-api".toList = true <;>
      simp only [String.toList] at hb <;> simp [claudeValidateAPIKey, h, hb, String.toList]
  · by_cases hb : hasPrefixGo (goTrim v).toList "sk-".toList = true <;>
      simp only [String.toList] at hb <;> simp [codexValidateAPIKey, h, hb, String.toList]
  · by_cases hb : hasPrefixGo (goTrim v).toList "AIza".toList = true <;>
      simp only [String.toList] at hb <;> simp [geminiValidateAPIKey, h, hb, String.toList]

/-- Witness for C8: a well-formed Anthropic key passes; upper-casing the
vendor code, or dropping its last character, fails. -/
theorem apikey_validation_witness :
    claudeValidateAPIKey "sk-ant-api03-xyz" = .ok ()
    ∧ claudeValidateAPIKey "SK-ANT-API03-xyz" ≠ .ok ()
    ∧ claudeValidateAPIKey "sk-ant-ap03-xyz" ≠ .ok () := by
  refine ⟨?_, ?_, ?_⟩
  · exact (apikey_validation_is_literal_starts_with "sk-ant-api03-xyz" (by decide)).1.mpr
      (by decide)
  · intro hok
    have := (apikey_validation_is_literal_starts_with "SK-ANT-API03-xyz"
      (by decide)).1.mp hok
    exact absurd this (by decide)
  · intro hok
    have := (apikey_validation_is_literal_starts_with "sk-ant-ap03-xyz"
      (by decide)).1.mp hok
    exact absurd this (by decide)

/-- C10: `extractToken` returns either the empty string or a string that
starts with the vendor code `sk-ant-`; a non-empty result is always a
candidate token. -/
theorem extractToken_result_shape (s : String) :
    extractToken s = "" ∨ hasPrefixGo (extractToken s).toList "sk-ant-".toList = true := by
  unfold extractToken
  rcases extractTokenGo_shape (fieldsFuncGo isLineSep s.toList) with h | h
  · exact Or.inl (by rw [h])
  · exact Or.inr h

/-- C5 (amended): for every input, `extractToken` returns the
TrimSpace-then-stripANSI image of the first line whose image starts with
`sk-ant-` (the source trims BEFORE stripping, so whitespace that stripping
uncovers is kept and is seen by the test), and the empty string when no line
qualifies. -/
theorem extractToken_trims_before_stripping (s : String) :
    extractToken s = extractTokenFound s := by
  unfold extractToken extractTokenFound
  rw [extractTokenGo_eq_find (fieldsFuncGo isLineSep s.toList)]
  cases hf : (fieldsFuncGo isLineSep s.toList).find?
      (fun line => isClaudeToken (stripANSIAux (goTrimList line) false)) <;> rfl

/-- C5 counterexample: on `"\x1b[1m sk-ant-x"` the code returns the empty
string, while the claim's strip-then-trim reading returns `"sk-ant-x"` — the
claim as stated is false at this input. -/
theorem extractToken_spec_order_counterexample :
    extractToken "\x1b[1m sk-ant-x" = ""
    ∧ specExtractToken "\x1b[1m sk-ant-x" = "sk-ant-x"
    ∧ extractToken "\x1b[1m sk-ant-x" ≠ specExtractToken "\x1b[1m sk-ant-x" :=
  ⟨by decide, by decide, by decide⟩

/-- C4: Codex `CheckSubscription` by cases — missing auth.json fails with
the NotAuthenticated message carrying the `codex login` remediation;
a present zero-length file fails with the corrupt-credential message; any
other content is returned verbatim with no structural validation (a
non-JSON artifact still succeeds); only `ValidateSubscription` checks the
JSON-object shape (leading `\x7b` after trimming). -/
theorem codex_checkSubscription_cases :
    (codexCheckSubscription .notExist = .error codexNotAuthMsg
      ∧ containsStr codexNotAuthMsg "codex login" = true)
    ∧ codexCheckSubscription (.ok "") = .error codexEmptyMsg
    ∧ (∀ d : String, d ≠ "" → codexCheckSubscription (.ok d) = .ok d)
    ∧ (∀ v : String, goTrim v ≠ "" →
        (codexValidateSubscription v = .ok () ↔
          hasPrefixGo (goTrim v).toList "\x7b".toList = true)) := by
  refine ⟨⟨rfl, by decide⟩, rfl, ?_, ?_⟩
  · intro d hd
    simp [codexCheckSubscription, readCodexAuth, hd]
  · intro v h
    by_cases hb : hasPrefixGo (goTrim v).toList "\x7b".toList = true <;>
      simp only [String.toList] at hb <;>
      simp [codexValidateSubscription, h, hb, String.toList]

/-- Witness for C4: the non-JSON artifact `"notjson"` passes
`CheckSubscription` verbatim yet fails `ValidateSubscription`. -/
theorem codex_checkSubscription_witness :
    codexCheckSubscription (.ok "notjson") = .ok "notjson"
    ∧ codexValidateSubscription "notjson" ≠ .ok () := by
  refine ⟨codex_checkSubscription_cases.2.2.1 "notjson" (by decide), ?_⟩
  intro hok
  have := (codex_checkSubscription_cases.2.2.2 "notjson" (by decide)).mp hok
  exact absurd this (by decide)

/-- C9: `Delete` is idempotent — deleting a nonexistent account succeeds,
repeating a delete succeeds and leaves the state fixed, both the typed
key-not-found error and the generic missing-file condition convert to
success, and any other backend error is returned unchanged. -/
theorem keychain_delete_idempotent :
    (∀ (typed : Bool) (st : StoreState) (a : String),
        st.entries.lookup a = none → (keychainDelete typed st a).2 = .ok ())
    ∧ (∀ (typed : Bool) (st : StoreState) (a : String),
        (keychainDelete typed st a).2 = .ok ()
        ∧ (keychainDelete typed (keychainDelete typed st a).1 a).2 = .ok ()
        ∧ (keychainDelete typed (keychainDelete typed st a).1 a).1
            = (keychainDelete typed st a).1)
    ∧ deleteMapErr .keyNotFound = .ok ()
    ∧ deleteMapErr .fileNotExist = .ok ()
    ∧ (∀ e, deleteMapErr (.otherErr e) = .error e) := by
  have hok : ∀ (typed : Bool) (st : StoreState) (a : String),
      (keychainDelete typed st a).2 = .ok () := by
    intro typed st a
    unfold keychainDelete ringRemove
    by_cases hp : (st.entries.lookup a).isSome = true
    · simp [hp, deleteMapErr]
    · simp only [Bool.not_eq_true] at hp
      cases typed <;> simp [hp, deleteMapErr]
  have hstate : ∀ (typed : Bool) (st : StoreState) (a : String),
      (keychainDelete typed (keychainDelete typed st a).1 a).1
        = (keychainDelete typed st a).1 := by
    intro typed st a
    unfold keychainDelete ringRemove
    by_cases hp : (st.entries.lookup a).isSome = true
    · simp only [hp, if_true]
      have : ((st.entries.filter (fun kv => kv.1 ≠ a)).lookup a).isSome = false := by
        rw [lookup_filter_ne]
        rfl
      simp [this]
    · simp only [Bool.not_eq_true] at hp
      simp [hp]
  exact ⟨fun t st a _ => hok t st a,
    fun t st a => ⟨hok t st a, hok t _ a, hstate t st a⟩,
    rfl, rfl, fun e => rfl⟩

/-- Witness for C9: deleting from an empty store succeeds. -/
theorem keychain_delete_witness :
    (keychainDelete true ⟨[]⟩ "claude-credential").2 = .ok () :=
  keychain_delete_idempotent.1 true ⟨[]⟩ "claude-credential" (by decide)

/-- C3 (amended): Gemini `CheckSubscription` by cases — missing
oauth_creds.json fails with the NotAuthenticated message naming the
`gemini` login command; a present file whose refresh-token field is missing
or empty fails with the missing-refresh-token error; missing
google_accounts.json fails with its own error naming that file; when both
files are present, the refresh token non-empty and each document valid
JSON, the result is the composite object with the two documents embedded in
Go-compacted (not byte-verbatim) form. -/
theorem gemini_checkSubscription_cases :
    (∀ ad, geminiCheckSubscription .notExist ad = .error geminiNotAuthMsg)
    ∧ containsStr geminiNotAuthMsg "Run: gemini" = true
    ∧ (∀ od ad, unmarshalRefreshToken od = .ok "" →
        geminiCheckSubscription (.ok od) ad = .error geminiMissingRefreshMsg)
    ∧ (∀ od rt, unmarshalRefreshToken od = .ok rt → rt ≠ "" →
        geminiCheckSubscription (.ok od) .notExist = .error geminiAccountsMissingMsg)
    ∧ containsStr geminiAccountsMissingMsg "google_accounts.json" = true
    ∧ (∀ od ad rt ca cb, unmarshalRefreshToken od = .ok rt → rt ≠ "" →
        goCompact od = .ok ca → goCompact ad = .ok cb →
        geminiCheckSubscription (.ok od) (.ok ad)
          = .ok ("\x7b\"oauth_creds\":" ++ ca ++ ",\"google_accounts\":" ++ cb ++ "\x7d")) := by
  refine ⟨fun ad => rfl, by decide, ?_, ?_, by decide, ?_⟩
  · intro od ad h
    simp [geminiCheckSubscription, readGeminiConfig, h]
  · intro od rt h hne
    simp [geminiCheckSubscription, readGeminiConfig, h, hne]
  · intro od ad rt ca cb h hne hca hcb
    simp [geminiCheckSubscription, readGeminiConfig, marshalGeminiConfig, h, hne, hca, hcb]

/-- Witness for C3 at concrete artifacts (already-compact documents embed
unchanged). -/
theorem gemini_checkSubscription_witness :
    geminiCheckSubscription (.ok "\x7b\"refresh_token\":\"tok\"\x7d") (.ok "[1]")
      = .ok "\x7b\"oauth_creds\":\x7b\"refresh_token\":\"tok\"\x7d,\"google_accounts\":[1]\x7d" :=
  gemini_checkSubscription_cases.2.2.2.2.2 "\x7b\"refresh_token\":\"tok\"\x7d" "[1]" "tok"
    "\x7b\"refresh_token\":\"tok\"\x7d" "[1]" (by rfl) (by decide) (by rfl) (by rfl)

/-- C3 counterexample: with oauth_creds.json `\x7b"refresh_token":"x"\x7d`
and google_accounts.json `\x7b \x7d` (both present, refresh token
non-empty), `CheckSubscription` succeeds but its output does not contain the
second raw document verbatim — compaction dropped the interior space — so
the claim's "verbatim sub-documents" clause is false at this input. -/
theorem gemini_composite_not_verbatim :
    unmarshalRefreshToken "\x7b\"refresh_token\":\"x\"\x7d" = .ok "x"
    ∧ geminiCheckSubscription (.ok "\x7b\"refresh_token\":\"x\"\x7d") (.ok "\x7b \x7d")
        = .ok "\x7b\"oauth_creds\":\x7b\"refresh_token\":\"x\"\x7d,\"google_accounts\":\x7b\x7d\x7d"
    ∧ containsStr
        "\x7b\"oauth_creds\":\x7b\"refresh_token\":\"x\"\x7d,\"google_accounts\":\x7b\x7d\x7d"
        "\x7b \x7d" = false :=
  ⟨by rfl, by rfl, by decide⟩


end Headjack
